import Mathlib

/-!
Verification development for the ceph-scripts repository.

Pipeline 1 (ceph-stats/process.py): a tagged-log scanner that matches lines
of the form `YYYY-MM-DD HH:MM:SS [tag] payload`, parses the payload as a JSON
value, and projects key paths out of it, rendering a missing path as `-`.

Pipeline 2 (host-stats/process_iostat_all.py): a periodic iostat-block parser
that recognizes timestamp lines, `Device:` header lines and per-device data
lines, accumulates a metric -> timestamp -> device -> value pivot table, and
serializes each metric with timestamps in sorted order.

All definitions are shallow embeddings of the Python source.  Python machine
behaviour that the source relies on (string splitting, dict update order,
list.index, string comparison by code point, exception flow) is modelled
explicitly; the JSON parser (the `json.loads` standard-library call) is an
external collaborator and is modelled as an abstract parsing parameter.
-/

/-- Parsed JSON values as produced by `json.loads`.  Python represents the
JSON null literal by the object `None`; mappings preserve insertion order and
have string keys.  Numbers are restricted to integers, the only numeric
literals the claims exercise. -/
inductive JVal where
  | null : JVal
  | bool : Bool → JVal
  | num : Int → JVal
  | str : String → JVal
  | arr : List JVal → JVal
  | obj : List (String × JVal) → JVal

/-- Python whitespace characters, as recognized by `str.split()` and the
regex class used by the scripts (`\s` for ASCII input). -/
def isPySpace (c : Char) : Bool :=
  c == ' ' || c == '\t' || c == '\n' || c == '\x0b' || c == '\x0c' || c == '\r'

/-- ASCII decimal digit test (`str.isdigit` on the ASCII inputs in scope). -/
def isDigitCh (c : Char) : Bool :=
  decide (48 ≤ c.toNat) && decide (c.toNat ≤ 57)

/-- Python `str.isdigit()`: true iff the string is nonempty and all digits. -/
def isAllDigits (s : String) : Bool :=
  !s.toList.isEmpty && s.toList.all isDigitCh

/-- Python `int(...)` on an all-digit string. -/
def strToNat (s : String) : Nat :=
  s.toList.foldl (fun a c => a * 10 + (c.toNat - 48)) 0

/-- Auxiliary worker for Python `str.split()`: accumulates the current word
(in reverse) while scanning the character list. -/
def pySplitAux : List Char → List Char → List String
  | [], [] => []
  | [], acc => [String.mk acc.reverse]
  | c :: cs, acc =>
    if isPySpace c then
      match acc with
      | [] => pySplitAux cs []
      | _ => String.mk acc.reverse :: pySplitAux cs []
    else
      pySplitAux cs (c :: acc)

/-- Python `str.split()` with no separator: split on runs of whitespace,
dropping leading and trailing whitespace. -/
def pySplit (s : String) : List String :=
  pySplitAux s.toList []

/-- First-occurrence lookup in an association list, modelling Python dict
indexing `d[k]` (dicts built by the scripts never hold duplicate keys). -/
def alookup {α : Type} (k : String) : List (String × α) → Option α
  | [] => none
  | (k1, v) :: rest => if k1 = k then some v else alookup k rest

/-- One key-path segment lookup `v[k]`, exactly as Python evaluates it inside
the resolver loop of ceph-stats/process.py: an all-digit segment is first
converted with `int`, so it indexes sequences (and Python strings, which are
indexable); any other lookup on a sequence or scalar raises and is reported
here as `none`.  A JSON mapping has string keys only, so an integer key is
always a `KeyError`, reported as `none` as well. -/
def lookupSeg (v : JVal) (seg : String) : Option JVal :=
  if isAllDigits seg then
    match v with
    | JVal.arr xs => xs.get? (strToNat seg)
    | JVal.str s => (s.toList.get? (strToNat seg)).map (fun c => JVal.str (String.mk [c]))
    | _ => none
  else
    match v with
    | JVal.obj kvs => alookup seg kvs
    | _ => none

/-- The resolver loop of ceph-stats/process.py (lines 77-84): walk the
segments; on the first lookup that raises, set the result to `None`
(JSON null, `JVal.null`) and break out of the loop. -/
def resolve (v : JVal) : List String → JVal
  | [] => v
  | seg :: rest =>
    match lookupSeg v seg with
    | some w => resolve w rest
    | none => JVal.null

/-- Specification-side chained lookup: `some` of the fully resolved sub-value
when every segment lookup succeeds, `none` as soon as any segment fails.
Used only to compare `resolve` against the wording of the spec. -/
def resolveSpec (v : JVal) : List String → Option JVal
  | [] => some v
  | seg :: rest =>
    match lookupSeg v seg with
    | some w => resolveSpec w rest
    | none => none

/-- Model of Python `str()` applied to a parsed JSON value, as performed by
`print v` (external interpreter behaviour; only the `None` case is ever
inspected by a theorem below). -/
def pyStr : JVal → String
  | JVal.null => "None"
  | JVal.bool true => "True"
  | JVal.bool false => "False"
  | JVal.num n => toString n
  | JVal.str s => s
  | JVal.arr _ => "[...]"
  | JVal.obj _ => "{...}"

/-- The non-pretty cell emitted by ceph-stats/process.py line 88:
`print v is None and '-' or v`, i.e. `-` exactly when the resolved value is
Python `None` (JSON null / failed lookup), otherwise `str(v)`. -/
def renderCell (v : JVal) : String :=
  match v with
  | JVal.null => "-"
  | v => pyStr v

/-- Matches one character-class pattern list against a prefix of the input,
returning the remaining characters on success. -/
def matchPats : List (Char → Bool) → List Char → Option (List Char)
  | [], cs => some cs
  | _ :: _, [] => none
  | p :: ps, c :: cs => if p c then matchPats ps cs else none

/-- Character predicate testing equality with a fixed character. -/
def chIs (a : Char) : Char → Bool := fun c => c == a

/-- Strips an exact literal character prefix, returning the remainder. -/
def stripLit : List Char → List Char → Option (List Char)
  | [], cs => some cs
  | _ :: _, [] => none
  | p :: ps, c :: cs => if c = p then stripLit ps cs else none

/-- The 19-character timestamp pattern `\d{4}-\d\d-\d\d \d\d:\d\d:\d\d` of the
ceph-stats scanner regex. -/
def tsPat19 : List (Char → Bool) :=
  [isDigitCh, isDigitCh, isDigitCh, isDigitCh, chIs '-',
   isDigitCh, isDigitCh, chIs '-', isDigitCh, isDigitCh, chIs ' ',
   isDigitCh, isDigitCh, chIs ':', isDigitCh, isDigitCh, chIs ':',
   isDigitCh, isDigitCh]

/-- The scanner regex of ceph-stats/process.py line 63:
`^(\d{4}-\d\d-\d\d \d\d:\d\d:\d\d) \[tag\] \s*(.*)$`, with the tag
interpolated literally (tags containing regex metacharacters are outside the
modelled fragment, as flagged by the spec).  Returns the timestamp group and
the payload group; the greedy `\s*` strips the whitespace between the fixed
`] ` separator and the payload text.  Input lines carry no newline. -/
def matchLine (tag line : String) : Option (String × String) :=
  let cs := line.toList
  match matchPats tsPat19 cs with
  | none => none
  | some rest =>
    match rest with
    | ' ' :: '[' :: rest2 =>
      match stripLit tag.toList rest2 with
      | none => none
      | some rest3 =>
        match rest3 with
        | ']' :: ' ' :: rest4 =>
          some (String.mk (cs.take 19), String.mk (rest4.dropWhile isPySpace))
        | _ => none
    | _ => none

/-- Per-line behaviour of the scanner loop (process.py lines 66-71): a
non-matching line is skipped (`.ok none`); a matching line has its payload
parsed by `json.loads` — modelled by the abstract parameter `parse`, `none`
standing for a parse exception — and a parse failure propagates as a fatal
error, while success yields the (timestamp, payload) entry. -/
def scanStep (parse : String → Option JVal) (tag line : String) :
    Except Unit (Option (String × JVal)) :=
  match matchLine tag line with
  | none => Except.ok none
  | some (t, payload) =>
    match parse payload with
    | some v => Except.ok (some (t, v))
    | none => Except.error ()

/-- Claim C1: key-path resolution never raises: it returns the fully resolved
sub-value when every segment lookup succeeds and the `Absent` marker (Python
`None`, i.e. `JVal.null`) otherwise, and as soon as one segment lookup fails
the result is `Absent` regardless of the remaining segments, which are not
processed. -/
theorem resolve_total_and_shortcircuits :
    (∀ (v : JVal) (path : List String),
      resolve v path = (resolveSpec v path).getD JVal.null) ∧
    (∀ (v : JVal) (seg : String) (rest : List String),
      lookupSeg v seg = none → resolve v (seg :: rest) = JVal.null) := by
  constructor
  · intro v path
    induction path generalizing v with
    | nil => simp [resolve, resolveSpec]
    | cons seg rest ih =>
      simp only [resolve, resolveSpec]
      cases h : lookupSeg v seg with
      | none => simp
      | some w => simpa using ih w
  · intro v seg rest h
    simp [resolve, h]

/-- Witness for C1: the failing lookup hypothesis holds at a concrete scalar
and the resolution short-circuits to `Absent` there. -/
theorem resolve_total_and_shortcircuits_witness :
    lookupSeg (JVal.num 3) "a" = none ∧
      resolve (JVal.num 3) ["a", "b"] = JVal.null :=
  ⟨rfl, resolve_total_and_shortcircuits.2 (JVal.num 3) "a" ["b"] rfl⟩

/-- Counterexample to claim C4: a payload holding the JSON null literal at the
requested key path produces exactly the same non-pretty output cell as a
payload from which the key path is missing — both render `-`, because the
code uses Python `None` both for parsed null and as the failure sentinel. -/
theorem null_and_absent_render_identically :
    renderCell (resolve (JVal.obj [("a", JVal.null)]) ["a"]) =
        renderCell (resolve (JVal.obj []) ["a"]) ∧
      renderCell (resolve (JVal.obj [("a", JVal.null)]) ["a"]) = "-" :=
  ⟨rfl, rfl⟩

/-- Claim C4 as amended: the `Absent` marker is not distinguishable from a
legitimate null value in the payload: whenever two resolutions both produce
Python `None` — whether from a stored null literal or from a missing path —
the emitter renders both as `-`, so the outputs coincide. -/
theorem absent_renders_as_dash (v1 v2 : JVal) (p1 p2 : List String)
    (h1 : resolve v1 p1 = JVal.null) (h2 : resolve v2 p2 = JVal.null) :
    renderCell (resolve v1 p1) = "-" ∧
      renderCell (resolve v1 p1) = renderCell (resolve v2 p2) := by
  rw [h1, h2]
  exact ⟨rfl, rfl⟩

/-- Witness for the amended C4: a stored null and a missing key both resolve
to `None` and render as `-`. -/
theorem absent_renders_as_dash_witness :
    renderCell (resolve (JVal.obj [("a", JVal.null)]) ["a"]) = "-" ∧
      renderCell (resolve (JVal.obj [("a", JVal.null)]) ["a"]) =
        renderCell (resolve (JVal.obj []) ["a"]) :=
  absent_renders_as_dash (JVal.obj [("a", JVal.null)]) (JVal.obj [])
    ["a"] ["a"] rfl rfl

/-- Claim C8: an all-digit key-path segment is interpreted as a sequence
index: `["1"]` against `[10,20,30]` yields `20`, and the out-of-range `["5"]`
yields `Absent`. -/
theorem digit_segment_indexes_sequences :
    resolve (JVal.arr [JVal.num 10, JVal.num 20, JVal.num 30]) ["1"] =
        JVal.num 20 ∧
      resolve (JVal.arr [JVal.num 10, JVal.num 20, JVal.num 30]) ["5"] =
        JVal.null :=
  ⟨rfl, rfl⟩

/-- Claim C9: resolving the empty key path returns the payload unchanged. -/
theorem resolve_empty_path (v : JVal) : resolve v [] = v := rfl

/-- Claim C6: a line that matches the timestamp+tag grammar but whose payload
text fails to parse as a JSON literal makes the scanner raise a fatal error —
the line is not skipped and no entry is yielded for it. -/
theorem malformed_tagged_payload_is_fatal (parse : String → Option JVal)
    (tag line t payload : String)
    (hm : matchLine tag line = some (t, payload))
    (hp : parse payload = none) :
    scanStep parse tag line = Except.error () := by
  simp [scanStep, hm, hp]

/-- Witness for C6: a concrete tagged line whose payload the parser rejects
is a fatal error for the scanner. -/
theorem malformed_tagged_payload_is_fatal_witness :
    matchLine "disk" "2024-01-01 00:00:00 [disk] not-json" =
        some ("2024-01-01 00:00:00", "not-json") ∧
      scanStep (fun _ => none) "disk" "2024-01-01 00:00:00 [disk] not-json" =
        Except.error () :=
  ⟨by decide,
   malformed_tagged_payload_is_fatal (fun _ => none) "disk"
     "2024-01-01 00:00:00 [disk] not-json" "2024-01-01 00:00:00" "not-json"
     (by decide) rfl⟩

/-- Boolean code-point-lexicographic strict comparison on character lists:
the order Python uses to compare the (ASCII) strings sorted by `sorted()`. -/
def pyLt : List Char → List Char → Bool
  | [], [] => false
  | [], _ :: _ => true
  | _ :: _, [] => false
  | a :: as, b :: bs =>
    if a.toNat < b.toNat then true
    else if b.toNat < a.toNat then false
    else pyLt as bs

/-- Python string strict comparison `s < t`. -/
def pyStrLt (s t : String) : Bool := pyLt s.toList t.toList

/-- Python string comparison `s <= t`, the total order used by `sorted()`. -/
def pyStrLe (s t : String) : Bool := !(pyLt t.toList s.toList)

/-- Insertion into a list sorted by `pyStrLe`. -/
def insertSorted (x : String) : List String → List String
  | [] => [x]
  | y :: ys => if pyStrLe x y then x :: y :: ys else y :: insertSorted x ys

/-- Python `sorted()` on a list of strings (insertion sort; the scripts only
sort lists of distinct dict keys, so stability is irrelevant). -/
def pySorted (l : List String) : List String := l.foldr insertSorted []

/-- The 17-character timestamp pattern `\d\d/\d\d/\d\d \d\d:\d\d:\d\d` of the
iostat parser (`time_r` in process_iostat_all.py). -/
def tsPat17 : List (Char → Bool) :=
  [isDigitCh, isDigitCh, chIs '/', isDigitCh, isDigitCh, chIs '/',
   isDigitCh, isDigitCh, chIs ' ', isDigitCh, isDigitCh, chIs ':',
   isDigitCh, isDigitCh, chIs ':', isDigitCh, isDigitCh]

/-- `time_r`: `^\s*(\d\d/\d\d/\d\d \d\d:\d\d:\d\d)\s*$` — a timestamp alone
on the line, surrounded by optional whitespace; returns the timestamp. -/
def time_r (line : String) : Option String :=
  let cs := line.toList.dropWhile isPySpace
  match matchPats tsPat17 cs with
  | none => none
  | some rest => if rest.all isPySpace then some (String.mk (cs.take 17)) else none

/-- Shared tail `\s+(.+)$` of the `cols_r` and `data_r` regexes: at least one
whitespace character followed by a nonempty remainder.  The greedy `\s+`
backtracks one character when the remainder is all whitespace, leaving the
last whitespace character as the group — which `str.split()` then turns into
the empty token list either way. -/
def tailMatch (cs : List Char) : Option String :=
  match cs with
  | [] => none
  | c :: _ =>
    if isPySpace c then
      let body := cs.dropWhile isPySpace
      if body.isEmpty then
        if decide (2 ≤ cs.length) then some (String.mk (cs.drop (cs.length - 1)))
        else none
      else some (String.mk body)
    else none

/-- `cols_r`: `^\s*Device:\s+(.+)$` — the column-header line; returns the
raw column-name group. -/
def cols_r (line : String) : Option String :=
  match stripLit "Device:".toList (line.toList.dropWhile isPySpace) with
  | none => none
  | some rest => tailMatch rest

/-- The restricted device-token alternation `(sd[a-e]|sdg[0-9])` of `data_r`.
The two branches are mutually exclusive on the third character, so regex
backtracking never crosses between them. -/
def devTok : List Char → Option (String × List Char)
  | 's' :: 'd' :: c :: rest =>
    if decide (97 ≤ c.toNat) && decide (c.toNat ≤ 101) then
      some (String.mk ['s', 'd', c], rest)
    else if c = 'g' then
      match rest with
      | d :: rest2 =>
        if isDigitCh d then some (String.mk ['s', 'd', 'g', d], rest2) else none
      | [] => none
    else none
  | _ => none

/-- `data_r`: `^\s*(sd[a-e]|sdg[0-9])\s+(.+)$` — a per-device data row;
returns the device token and the raw value group. -/
def data_r (line : String) : Option (String × String) :=
  match devTok (line.toList.dropWhile isPySpace) with
  | none => none
  | some (disk, rest) =>
    match tailMatch rest with
    | none => none
    | some g2 => some (disk, g2)

/-- Python `list.index`, returning the position of the first occurrence (the
scripts only call it on members, where it cannot raise). -/
def pyIndex (x : String) : List String → Nat
  | [] => 0
  | y :: ys => if y = x then 0 else pyIndex x ys + 1

/-- In-place overwrite-or-append update of an association list, modelling
`d[k] = v` on a Python dict (insertion order preserved, existing key
overwritten in place). -/
def aupdate {α : Type} (k : String) (v : α) : List (String × α) → List (String × α)
  | [] => [(k, v)]
  | (k1, v1) :: rest =>
    if k1 = k then (k, v) :: rest else (k1, v1) :: aupdate k v rest

/-- The pivot table `res`: metric name -> timestamp -> device -> raw value. -/
def PivotTable : Type := List (String × List (String × List (String × String)))

/-- The three `if not ...` guarded assignments of process_iostat_all.py lines
73-77: create the missing (or falsy empty) inner dicts, then assign
`res[key][time][disk] = value`. -/
def addCell (res : PivotTable) (key time disk value : String) : PivotTable :=
  let m1 := (alookup key res).getD []
  let m2 := (alookup time m1).getD []
  aupdate key (aupdate time (aupdate disk value m2) m1) res

/-- The inner `for key in cols` loop of a data line (lines 72-78): each column
name takes the value at its first position in the full current column list
(`i = cols.index(key)`); `data[i]` with `i` out of range raises an
`IndexError`, which propagates and aborts the run (`Except.error`). -/
def processCols (cols : List String) (time disk : String) (data : List String) :
    List String → PivotTable → Except Unit PivotTable
  | [], res => Except.ok res
  | key :: rest, res =>
    match data.get? (pyIndex key cols) with
    | some v => processCols cols time disk data rest (addCell res key time disk v)
    | none => Except.error ()

/-- The parser state of process_iostat_all.py: current timestamp, current
column list, and the accumulated pivot table. -/
structure PState where
  time : String
  cols : List String
  res : PivotTable

/-- Initial state: `time = ''`, `cols = []`, `res = {}`. -/
def pstate0 : PState := ⟨"", [], []⟩

/-- The data-line half of the loop body: lines that match `data_r` run the
inner column loop with the current state; all other lines leave the state
unchanged.  (In the source the `data_r` test is reached both on unmatched
lines and — because the header branch has no `continue` — on header lines,
whose text can never match `data_r`.) -/
def stepData (st : PState) (line : String) : Except Unit PState :=
  match data_r line with
  | some (disk, g2) =>
    Except.map (fun r => { st with res := r })
      (processCols st.cols st.time disk (pySplit g2) st.cols st.res)
  | none => Except.ok st

/-- One iteration of the main loop of process_iostat_all.py (lines 61-80):
a timestamp line overwrites the current timestamp and continues; a header
line overwrites the current column list (no continue); then a data line adds
its cells.  Lines matching none of the three recognizers fall through with no
effect. -/
def step (st : PState) (line : String) : Except Unit PState :=
  match time_r line with
  | some t => Except.ok { st with time := t }
  | none =>
    match cols_r line with
    | some g => stepData { st with cols := pySplit g } line
    | none => stepData st line

/-- The whole input loop: fold `step` over the lines, propagating a raised
exception (which aborts the run). -/
def runLines : PState → List String → Except Unit PState
  | st, [] => Except.ok st
  | st, l :: ls =>
    match step st l with
    | Except.ok st1 => runLines st1 ls
    | Except.error e => Except.error e

/-- Reads one cell of the pivot table: `res[key][time][disk]`, `none` when
any of the three dict lookups would raise. -/
def cellLookup (res : PivotTable) (key time disk : String) : Option String :=
  match alookup key res with
  | none => none
  | some m1 =>
    match alookup time m1 with
    | none => none
    | some m2 => alookup disk m2

/-- Reads one cell out of a finished (non-raising) run; `none` when the run
raised. -/
def cellOf (r : Except Unit PState) (key time disk : String) : Option String :=
  match r with
  | Except.ok st => cellLookup st.res key time disk
  | Except.error _ => none

/-- One metric's slice of the pivot table: timestamp -> device -> value. -/
def TimeMap : Type := List (String × List (String × String))

/-- The keys of a Python dict in insertion order (`d.keys()`). -/
def keysOf {α : Type} (m : List (String × α)) : List String := m.map Prod.fst

/-- `res[key][time]` for a timestamp taken from the table's key list. -/
def devsAt (tm : TimeMap) (t : String) : List (String × String) :=
  (alookup t tm).getD []

/-- Builds one output row (lines 94-96): start from the timestamp and append
`"\t" + res[key][time][disk]` for each device of the fixed column order; a
missing device is a `KeyError`, which propagates. -/
def rowGo (dm : List (String × String)) : List String → String → Except Unit String
  | [], acc => Except.ok acc
  | dk :: ds, acc =>
    match alookup dk dm with
    | some v => rowGo dm ds (acc ++ "\t" ++ v)
    | none => Except.error ()

/-- The serialization loop over sorted timestamps (lines 89-97): on the first
timestamp whose device dict is non-falsy the device column order is derived
from its sorted keys and kept from then on; each row then reads every device
of that fixed order.  (The two leading comment lines of the output file are
pure formatting and are not modelled.) -/
def serGo (tm : TimeMap) : List String → List String → Except Unit (List String)
  | _, [] => Except.ok []
  | disks, t :: ts =>
    let disks1 := if disks.isEmpty then pySorted (keysOf (devsAt tm t)) else disks
    match rowGo (devsAt tm t) disks1 t with
    | Except.error e => Except.error e
    | Except.ok row =>
      match serGo tm disks1 ts with
      | Except.error e => Except.error e
      | Except.ok rows => Except.ok (row :: rows)

/-- Serialization of one metric: iterate its timestamps in Python sorted
order. -/
def serializeMetric (tm : TimeMap) : Except Unit (List String) :=
  serGo tm [] (pySorted (keysOf tm))

/-- Numeric value of a two-digit field from its two characters. -/
def twoDigit (a b : Char) : Nat := 10 * (a.toNat - 48) + (b.toNat - 48)

/-- The calendar key (year, month, day, hour, minute, second) encoded by a
17-character `MM/DD/YY HH:MM:SS` timestamp. -/
def chronKey (s : String) : Nat × Nat × Nat × Nat × Nat × Nat :=
  match s.toList with
  | [m1, m2, _, d1, d2, _, y1, y2, _, h1, h2, _, n1, n2, _, e1, e2] =>
    (twoDigit y1 y2, twoDigit m1 m2, twoDigit d1 d2,
     twoDigit h1 h2, twoDigit n1 n2, twoDigit e1 e2)
  | _ => (0, 0, 0, 0, 0, 0)

/-- Chronological order on calendar keys: lexicographic by year, month, day,
hour, minute, second. -/
def chronLtP : Nat × Nat × Nat × Nat × Nat × Nat →
    Nat × Nat × Nat × Nat × Nat × Nat → Prop
  | (a1, a2, a3, a4, a5, a6), (b1, b2, b3, b4, b5, b6) =>
    a1 < b1 ∨ (a1 = b1 ∧ (a2 < b2 ∨ (a2 = b2 ∧ (a3 < b3 ∨ (a3 = b3 ∧
      (a4 < b4 ∨ (a4 = b4 ∧ (a5 < b5 ∨ (a5 = b5 ∧ a6 < b6)))))))))

instance : ∀ a b : Nat × Nat × Nat × Nat × Nat × Nat, Decidable (chronLtP a b)
  | (_, _, _, _, _, _), (_, _, _, _, _, _) => inferInstanceAs (Decidable (_ ∨ _))

/-- Well-formedness of a `MM/DD/YY HH:MM:SS` timestamp string: exactly the
17-character fixed-width pattern. -/
def fmtOK (s : String) : Bool := matchPats tsPat17 s.toList == some []

theorem alookup_aupdate_self {α : Type} (k : String) (v : α)
    (m : List (String × α)) : alookup k (aupdate k v m) = some v := by
  induction m with
  | nil => simp [aupdate, alookup]
  | cons p rest ih =>
    obtain ⟨k1, v1⟩ := p
    by_cases h : k1 = k
    · simp [aupdate, alookup, h]
    · simp [aupdate, alookup, h, ih]

theorem alookup_aupdate_ne {α : Type} (k k1 : String) (v : α)
    (m : List (String × α)) (hk : k ≠ k1) :
    alookup k (aupdate k1 v m) = alookup k m := by
  induction m with
  | nil => simp [aupdate, alookup, Ne.symm hk]
  | cons p rest ih =>
    obtain ⟨k2, v2⟩ := p
    by_cases h : k2 = k1
    · subst h
      simp [aupdate, alookup, Ne.symm hk]
    · simp only [aupdate, if_neg h, alookup]
      by_cases h2 : k2 = k
      · simp [h2]
      · simp [h2, ih]

theorem cellLookup_addCell_self (res : PivotTable) (k t d v : String) :
    cellLookup (addCell res k t d v) k t d = some v := by
  simp [addCell, cellLookup, alookup_aupdate_self]

theorem cellLookup_addCell_ne (res : PivotTable) (key k t d v : String)
    (h : key ≠ k) :
    cellLookup (addCell res k t d v) key t d = cellLookup res key t d := by
  simp [addCell, cellLookup, alookup_aupdate_ne _ _ _ _ h]

theorem pyIndex_lt_length (x : String) (l : List String) (h : x ∈ l) :
    pyIndex x l < l.length := by
  induction l with
  | nil => cases h
  | cons y ys ih =>
    by_cases hy : y = x
    · simp [pyIndex, hy]
    · rcases List.mem_cons.mp h with h1 | h1
      · exact absurd h1.symm hy
      · simpa [pyIndex, hy] using ih h1

theorem pyIndex_get_of_nodup (l : List String) (hnd : l.Nodup) (i : Nat)
    (hi : i < l.length) : pyIndex (l.get ⟨i, hi⟩) l = i := by
  induction l generalizing i with
  | nil => cases hi
  | cons y ys ih =>
    cases i with
    | zero => simp [pyIndex]
    | succ j =>
      have hj : j < ys.length := Nat.lt_of_succ_lt_succ hi
      have hmem : ys.get ⟨j, hj⟩ ∈ ys := List.get_mem ys j hj
      have hy : ¬ y = ys.get ⟨j, hj⟩ := by
        intro hcontra
        exact (List.nodup_cons.mp hnd).1 (hcontra ▸ hmem)
      have hget : (y :: ys).get ⟨j + 1, hi⟩ = ys.get ⟨j, hj⟩ := rfl
      rw [hget]
      simp only [pyIndex, if_neg hy]
      rw [ih (List.nodup_cons.mp hnd).2 j hj]

theorem get?_len_none {α : Type} (l : List α) : l.get? l.length = none := by
  induction l with
  | nil => rfl
  | cons x xs ih => simp [List.get?, ih]

theorem get?_isSome_of_lt {α : Type} (l : List α) (i : Nat) (h : i < l.length) :
    (l.get? i).isSome := by
  induction l generalizing i with
  | nil => cases h
  | cons x xs ih =>
    cases i with
    | zero => simp [List.get?]
    | succ j => simpa [List.get?] using ih j (Nat.lt_of_succ_lt_succ h)

theorem processCols_err (cols : List String) (t d : String) (data : List String) :
    ∀ (l : List String) (res : PivotTable),
      (∃ k, k ∈ l ∧ data.get? (pyIndex k cols) = none) →
      processCols cols t d data l res = Except.error () := by
  intro l
  induction l with
  | nil => rintro res ⟨k, hk, -⟩; cases hk
  | cons k0 rest ih =>
    rintro res ⟨k, hk, hnone⟩
    cases h0 : data.get? (pyIndex k0 cols) with
    | none => simp only [processCols, h0]
    | some v =>
      rcases List.mem_cons.mp hk with h1 | h1
      · rw [h1] at hnone
        rw [hnone] at h0
        cases h0
      · simp only [processCols, h0]
        exact ih _ ⟨k, h1, hnone⟩

theorem processCols_ok (cols : List String) (t d : String) (data : List String) :
    ∀ (l : List String) (res : PivotTable),
      (∀ k, k ∈ l → (data.get? (pyIndex k cols)).isSome) →
      ∃ res1, processCols cols t d data l res = Except.ok res1 ∧
        (∀ k, k ∈ l → cellLookup res1 k t d = data.get? (pyIndex k cols)) ∧
        (∀ k, ¬ k ∈ l → cellLookup res1 k t d = cellLookup res k t d) := by
  intro l
  induction l with
  | nil =>
    intro res _
    exact ⟨res, rfl, fun k hk => absurd hk (List.not_mem_nil k), fun _ _ => rfl⟩
  | cons k0 rest ih =>
    intro res hall
    have h0 : (data.get? (pyIndex k0 cols)).isSome :=
      hall k0 (List.mem_cons_self k0 rest)
    obtain ⟨v, hv⟩ := Option.isSome_iff_exists.mp h0
    obtain ⟨res1, hok, hmem, hframe⟩ :=
      ih (addCell res k0 t d v) (fun k hk => hall k (List.mem_cons_of_mem _ hk))
    refine ⟨res1, ?_, ?_, ?_⟩
    · simp only [processCols, hv]
      exact hok
    · intro k hk
      by_cases hkr : k ∈ rest
      · exact hmem k hkr
      · have hk0 : k = k0 := by
          rcases List.mem_cons.mp hk with h1 | h1
          · exact h1
          · exact absurd h1 hkr
        subst hk0
        rw [hframe k hkr, cellLookup_addCell_self, hv]
    · intro k hk
      have hk0 : k ≠ k0 := fun h => hk (h ▸ List.mem_cons_self k0 rest)
      have hkr : ¬ k ∈ rest := fun h => hk (List.mem_cons_of_mem _ h)
      rw [hframe k hkr, cellLookup_addCell_ne _ _ _ _ _ _ hk0]

/-- Claim C7: a line of the periodic-block parser that matches none of the
three recognized line kinds leaves the parser state — current timestamp,
current column list and accumulated pivot table — unchanged and emits no
record and no error. -/
theorem unmatched_line_no_effect (st : PState) (line : String)
    (h1 : time_r line = none) (h2 : cols_r line = none)
    (h3 : data_r line = none) :
    step st line = Except.ok st := by
  simp [step, stepData, h1, h2, h3]

/-- Witness for C7: the per-cpu numbers line from an iostat report matches no
recognizer and leaves a concrete nonempty parser state untouched. -/
theorem unmatched_line_no_effect_witness :
    time_r "            3.95    0.00    1.24" = none ∧
      step ⟨"07/27/15 11:59:24", ["r/s"],
          [("r/s", [("07/27/15 11:59:24", [("sda", "0.60")])])]⟩
          "            3.95    0.00    1.24" =
        Except.ok ⟨"07/27/15 11:59:24", ["r/s"],
          [("r/s", [("07/27/15 11:59:24", [("sda", "0.60")])])]⟩ :=
  ⟨by decide,
   unmatched_line_no_effect _ _ (by decide) (by decide) (by decide)⟩

/-- Counterexample to claim C10: with a header carrying a duplicate column
name (`Device: a a`) the data row `sda  1` has fewer value fields (one) than
the column list has names (two), yet the parser raises no error — both
occurrences of the name read the value at its first position, so the line is
processed and a full record is stored. -/
theorem short_row_duplicate_cols_does_not_raise :
    (pySplit "1").length < (pySplit "a a").length ∧
      cellOf (runLines pstate0 ["Device: a a", "sda  1"]) "a" "" "sda" =
        some "1" := by
  constructor
  · decide
  · decide

/-- Claim C10 as amended: when the current column list has pairwise distinct
names, a matching data line carrying fewer whitespace-separated value fields
than the column list has names makes the parser raise an out-of-range error
instead of skipping the line or emitting a partial record. -/
theorem short_data_row_raises (st : PState) (dl disk g2 : String)
    (h1 : time_r dl = none) (h2 : cols_r dl = none)
    (h3 : data_r dl = some (disk, g2))
    (hnd : st.cols.Nodup)
    (hlen : (pySplit g2).length < st.cols.length) :
    step st dl = Except.error () := by
  simp only [step, stepData, h1, h2, h3]
  have herr : processCols st.cols st.time disk (pySplit g2) st.cols st.res =
      Except.error () := by
    apply processCols_err
    refine ⟨st.cols.get ⟨(pySplit g2).length, hlen⟩, List.get_mem _ _ _, ?_⟩
    rw [pyIndex_get_of_nodup st.cols hnd _ hlen]
    exact get?_len_none (pySplit g2)
  rw [herr]
  rfl

/-- Witness for the amended C10: a data row with one value under two distinct
column names aborts the run. -/
theorem short_data_row_raises_witness :
    data_r "sda  1" = some ("sda", "1") ∧
      step ⟨"", ["a", "b"], []⟩ "sda  1" = Except.error () :=
  ⟨by decide,
   short_data_row_raises ⟨"", ["a", "b"], []⟩ "sda  1" "sda" "1"
     (by decide) (by decide) (by decide) (by decide) (by decide)⟩

/-- Counterexample to claim C2: after the mid-stream header `Device: y y`
(different column order, with a duplicate name), the data row `sda  3 4`
should — per the claim — bind the value at position 1 (`4`) to the column
name at position 1 (`y`); the code instead binds every occurrence of a name
to the value at its first position, so `y` holds `3`. -/
theorem rebind_duplicate_cols_cex :
    cellOf (runLines pstate0
        ["Device: x y", "sda  9 9", "Device: y y", "sda  3 4"]) "y" "" "sda" =
      some "3" ∧
    ¬ cellOf (runLines pstate0
        ["Device: x y", "sda  9 9", "Device: y y", "sda  3 4"]) "y" "" "sda" =
      some "4" := by
  constructor
  · decide
  · decide

/-- Claim C2 as amended: the position-to-column-name mapping is not sticky:
a header line occurring mid-stream overwrites (does not merge) the current
column list, and — provided the new header's column names are pairwise
distinct — every subsequent data row binds the value at position i to the new
header's column name at position i. -/
theorem header_rebinds_columns (st : PState) (hl dl g disk g2 : String)
    (ht1 : time_r hl = none) (hc1 : cols_r hl = some g)
    (hd1 : data_r hl = none)
    (ht2 : time_r dl = none) (hc2 : cols_r dl = none)
    (hd2 : data_r dl = some (disk, g2))
    (hnd : (pySplit g).Nodup)
    (hlen : (pySplit g).length ≤ (pySplit g2).length) :
    step st hl = Except.ok { st with cols := pySplit g } ∧
    ∃ st2, step { st with cols := pySplit g } dl = Except.ok st2 ∧
      st2.time = st.time ∧ st2.cols = pySplit g ∧
      ∀ i (hi : i < (pySplit g).length),
        cellLookup st2.res ((pySplit g).get ⟨i, hi⟩) st.time disk =
          (pySplit g2).get? i := by
  constructor
  · simp [step, stepData, ht1, hc1, hd1]
  · have hall : ∀ k, k ∈ pySplit g →
        ((pySplit g2).get? (pyIndex k (pySplit g))).isSome := by
      intro k hk
      exact get?_isSome_of_lt _ _
        (Nat.lt_of_lt_of_le (pyIndex_lt_length k _ hk) hlen)
    obtain ⟨res1, hok, hmem, -⟩ :=
      processCols_ok (pySplit g) st.time disk (pySplit g2) (pySplit g) st.res
        hall
    refine ⟨{ st with cols := pySplit g, res := res1 }, ?_, rfl, rfl, ?_⟩
    · simp only [step, stepData, ht2, hc2, hd2]
      show Except.map _ (processCols (pySplit g) st.time disk (pySplit g2)
        (pySplit g) st.res) = _
      rw [hok]
      rfl
    · intro i hi
      have hk : (pySplit g).get ⟨i, hi⟩ ∈ pySplit g := List.get_mem _ _ _
      rw [hmem _ hk, pyIndex_get_of_nodup _ hnd i hi]

/-- Witness for the amended C2: a fresh header `Device: x y` followed by the
data row `sda  3 4` binds x to 3 and y to 4. -/
theorem header_rebinds_columns_witness :
    cols_r "Device: x y" = some "x y" ∧
      (step pstate0 "Device: x y" =
          Except.ok { pstate0 with cols := pySplit "x y" } ∧
        ∃ st2, step { pstate0 with cols := pySplit "x y" } "sda  3 4" =
            Except.ok st2 ∧
          st2.time = pstate0.time ∧ st2.cols = pySplit "x y" ∧
          ∀ i (hi : i < (pySplit "x y").length),
            cellLookup st2.res ((pySplit "x y").get ⟨i, hi⟩) pstate0.time
              "sda" = (pySplit "3 4").get? i) :=
  ⟨by decide,
   header_rebinds_columns pstate0 "Device: x y" "sda  3 4" "x y" "sda" "3 4"
     (by decide) (by decide) (by decide) (by decide) (by decide) (by decide)
     (by decide) (by decide)⟩

theorem mem_insertSorted (x a : String) (l : List String) :
    x ∈ insertSorted a l ↔ x = a ∨ x ∈ l := by
  induction l with
  | nil => simp [insertSorted]
  | cons y ys ih =>
    by_cases h : pyStrLe a y = true
    · simp [insertSorted, h]
    · simp only [insertSorted, if_neg h, List.mem_cons, ih]
      tauto

theorem mem_pySorted (x : String) (l : List String) :
    x ∈ pySorted l ↔ x ∈ l := by
  induction l with
  | nil => simp [pySorted]
  | cons y ys ih =>
    show x ∈ insertSorted y (pySorted ys) ↔ _
    rw [mem_insertSorted, ih]
    simp

theorem rowGo_err (dm : List (String × String)) (d : String)
    (hd : alookup d dm = none) :
    ∀ (disks : List String) (acc : String), d ∈ disks →
      rowGo dm disks acc = Except.error () := by
  intro disks
  induction disks with
  | nil => intro acc h; cases h
  | cons dk ds ih =>
    intro acc hmem
    cases h : alookup dk dm with
    | none => simp only [rowGo, h]
    | some v =>
      have hne : d ≠ dk := by
        intro he
        rw [he, h] at hd
        cases hd
      have hds : d ∈ ds := by
        rcases List.mem_cons.mp hmem with h1 | h1
        · exact absurd h1 hne
        · exact h1
      simp only [rowGo, h]
      exact ih _ hds

theorem serGo_err (tm : TimeMap) (t2 d : String)
    (hd : alookup d (devsAt tm t2) = none) :
    ∀ (ts disks : List String), disks ≠ [] → d ∈ disks → t2 ∈ ts →
      serGo tm disks ts = Except.error () := by
  intro ts
  induction ts with
  | nil => intro disks _ _ h; cases h
  | cons t ts1 ih =>
    intro disks hne hdm ht2
    obtain ⟨dk, ds, rfl⟩ : ∃ dk ds, disks = dk :: ds := by
      cases disks with
      | nil => exact absurd rfl hne
      | cons dk ds => exact ⟨dk, ds, rfl⟩
    simp only [serGo, List.isEmpty_cons, if_neg Bool.false_ne_true]
    rcases List.mem_cons.mp ht2 with h1 | h1
    · subst h1
      rw [rowGo_err (devsAt tm t2) d hd _ _ hdm]
    · cases hrow : rowGo (devsAt tm t) (dk :: ds) t with
      | error e => rfl
      | ok row =>
        rw [ih (dk :: ds) hne hdm h1]

/-- Claim C5: during serialization of a metric, if a device that belongs to
the column order — derived from the device set of the first sorted timestamp
— is absent from the device set of a later timestamp, serialization fails
with a lookup error for that row instead of emitting an empty field. -/
theorem serialize_missing_device_raises (tm : TimeMap) (t1 t2 d : String)
    (rest : List String)
    (hsort : pySorted (keysOf tm) = t1 :: rest)
    (ht2 : t2 ∈ rest)
    (hd1 : d ∈ keysOf (devsAt tm t1))
    (hd2 : alookup d (devsAt tm t2) = none) :
    serializeMetric tm = Except.error () := by
  have hdm : d ∈ pySorted (keysOf (devsAt tm t1)) := (mem_pySorted _ _).mpr hd1
  have hne : pySorted (keysOf (devsAt tm t1)) ≠ [] := List.ne_nil_of_mem hdm
  unfold serializeMetric
  rw [hsort]
  simp only [serGo, List.isEmpty_nil, if_true]
  cases hrow : rowGo (devsAt tm t1) (pySorted (keysOf (devsAt tm t1))) t1 with
  | error e => rfl
  | ok row =>
    rw [serGo_err tm t2 d hd2 rest _ hne hdm ht2]

/-- Witness for C5: a two-timestamp table whose second timestamp lacks device
sdb aborts serialization with an error. -/
theorem serialize_missing_device_raises_witness :
    pySorted (keysOf [("t1", [("sda", "1"), ("sdb", "2")]),
        ("t2", [("sda", "3")])]) = ["t1", "t2"] ∧
      serializeMetric [("t1", [("sda", "1"), ("sdb", "2")]),
        ("t2", [("sda", "3")])] = Except.error () :=
  ⟨by decide,
   serialize_missing_device_raises
     [("t1", [("sda", "1"), ("sdb", "2")]), ("t2", [("sda", "3")])]
     "t1" "t2" "sdb" ["t2"] (by decide) (by decide) (by decide) (by decide)⟩

theorem isDigitCh_bounds (c : Char) (h : isDigitCh c = true) :
    48 ≤ c.toNat ∧ c.toNat ≤ 57 := by
  simpa [isDigitCh] using h

theorem pyLt_nil_nil : pyLt [] [] = false := rfl

theorem pyLt_sep (x : Char) (r1 r2 : List Char) :
    pyLt (x :: r1) (x :: r2) = pyLt r1 r2 := by
  simp [pyLt]

theorem pyLt_cons_iff (a c : Char) (as bs : List Char) :
    pyLt (a :: as) (c :: bs) = true ↔
      (a.toNat < c.toNat ∨ (a.toNat = c.toNat ∧ pyLt as bs = true)) := by
  simp only [pyLt]
  split_ifs with h1 h2
  · simp [h1]
  · have hne : a.toNat ≠ c.toNat := Nat.ne_of_gt h2
    simp [h1, hne]
  · have heq : a.toNat = c.toNat := by omega
    simp [h1, heq]

theorem pyLt_block (a b c d : Char) (r1 r2 : List Char)
    (ha : isDigitCh a = true) (hb : isDigitCh b = true)
    (hc : isDigitCh c = true) (hd : isDigitCh d = true) :
    (pyLt (a :: b :: r1) (c :: d :: r2) = true ↔
      twoDigit a b < twoDigit c d ∨
        (twoDigit a b = twoDigit c d ∧ pyLt r1 r2 = true)) := by
  obtain ⟨ha1, ha2⟩ := isDigitCh_bounds a ha
  obtain ⟨hb1, hb2⟩ := isDigitCh_bounds b hb
  obtain ⟨hc1, hc2⟩ := isDigitCh_bounds c hc
  obtain ⟨hd1, hd2⟩ := isDigitCh_bounds d hd
  rw [pyLt_cons_iff, pyLt_cons_iff]
  simp only [twoDigit]
  rcases Classical.em (pyLt r1 r2 = true) with hP | hP
  · simp only [hP, and_true]
    omega
  · simp only [hP, Bool.false_eq_true, and_false, or_false]
    omega

/-- Counterexample to claim C3: across a year boundary the fixed-width
`MM/DD/YY HH:MM:SS` format puts the year last, so lexicographic order
disagrees with chronological order: `12/31/15 23:59:59` precedes
`01/01/16 00:00:00` chronologically, yet sorts after it — `sorted()` emits
the two rows in reverse chronological order. -/
theorem lex_order_breaks_across_years :
    fmtOK "12/31/15 23:59:59" = true ∧ fmtOK "01/01/16 00:00:00" = true ∧
    chronLtP (chronKey "12/31/15 23:59:59") (chronKey "01/01/16 00:00:00") ∧
    pyStrLt "01/01/16 00:00:00" "12/31/15 23:59:59" = true ∧
    pySorted ["12/31/15 23:59:59", "01/01/16 00:00:00"] =
      ["01/01/16 00:00:00", "12/31/15 23:59:59"] :=
  ⟨by decide, by decide, by decide, by decide, by decide⟩

/-- Claim C3 as amended: for every pair of well-formed `MM/DD/YY HH:MM:SS`
timestamps whose two-digit year fields agree, lexicographic string order
coincides with chronological order, so rows serialized in lexicographically
sorted timestamp order are emitted chronologically within a single year. -/
theorem lex_order_matches_chron_same_year
    (m1 m2 d1 d2 y1 y2 h1 h2 n1 n2 e1 e2 : Char)
    (M1 M2 D1 D2 H1 H2 N1 N2 E1 E2 : Char) (s t : String)
    (hs : s.toList =
      [m1, m2, '/', d1, d2, '/', y1, y2, ' ', h1, h2, ':', n1, n2, ':', e1, e2])
    (ht : t.toList =
      [M1, M2, '/', D1, D2, '/', y1, y2, ' ', H1, H2, ':', N1, N2, ':', E1, E2])
    (q1 : isDigitCh m1 = true) (q2 : isDigitCh m2 = true)
    (q3 : isDigitCh d1 = true) (q4 : isDigitCh d2 = true)
    (q5 : isDigitCh h1 = true) (q6 : isDigitCh h2 = true)
    (q7 : isDigitCh n1 = true) (q8 : isDigitCh n2 = true)
    (q9 : isDigitCh e1 = true) (q10 : isDigitCh e2 = true)
    (Q1 : isDigitCh M1 = true) (Q2 : isDigitCh M2 = true)
    (Q3 : isDigitCh D1 = true) (Q4 : isDigitCh D2 = true)
    (Q5 : isDigitCh H1 = true) (Q6 : isDigitCh H2 = true)
    (Q7 : isDigitCh N1 = true) (Q8 : isDigitCh N2 = true)
    (Q9 : isDigitCh E1 = true) (Q10 : isDigitCh E2 = true) :
    (pyStrLt s t = true ↔ chronLtP (chronKey s) (chronKey t)) := by
  have hks : chronKey s = (twoDigit y1 y2, twoDigit m1 m2, twoDigit d1 d2,
      twoDigit h1 h2, twoDigit n1 n2, twoDigit e1 e2) := by
    unfold chronKey
    rw [hs]
  have hkt : chronKey t = (twoDigit y1 y2, twoDigit M1 M2, twoDigit D1 D2,
      twoDigit H1 H2, twoDigit N1 N2, twoDigit E1 E2) := by
    unfold chronKey
    rw [ht]
  rw [hks, hkt]
  unfold pyStrLt
  rw [hs, ht]
  rw [pyLt_block m1 m2 M1 M2 _ _ q1 q2 Q1 Q2]
  rw [pyLt_sep]
  rw [pyLt_block d1 d2 D1 D2 _ _ q3 q4 Q3 Q4]
  rw [pyLt_sep, pyLt_sep, pyLt_sep, pyLt_sep]
  rw [pyLt_block h1 h2 H1 H2 _ _ q5 q6 Q5 Q6]
  rw [pyLt_sep]
  rw [pyLt_block n1 n2 N1 N2 _ _ q7 q8 Q7 Q8]
  rw [pyLt_sep]
  rw [pyLt_block e1 e2 E1 E2 _ _ q9 q10 Q9 Q10]
  rw [pyLt_nil_nil]
  simp only [chronLtP, twoDigit, Bool.false_eq_true, and_false, or_false,
    lt_self_iff_false, false_or, true_and]

/-- Witness for the amended C3: two same-year timestamps eleven seconds and a
minute apart compare consistently in both orders. -/
theorem lex_order_matches_chron_same_year_witness :
    isDigitCh '0' = true ∧
      (pyStrLt "07/27/15 11:59:24" "07/27/15 12:00:00" = true ↔
        chronLtP (chronKey "07/27/15 11:59:24")
          (chronKey "07/27/15 12:00:00")) :=
  ⟨by decide,
   lex_order_matches_chron_same_year
     '0' '7' '2' '7' '1' '5' '1' '1' '5' '9' '2' '4'
     '0' '7' '2' '7' '1' '2' '0' '0' '0' '0'
     "07/27/15 11:59:24" "07/27/15 12:00:00"
     (by decide) (by decide)
     (by decide) (by decide) (by decide) (by decide) (by decide) (by decide)
     (by decide) (by decide) (by decide) (by decide) (by decide) (by decide)
     (by decide) (by decide) (by decide) (by decide) (by decide) (by decide)
     (by decide) (by decide)⟩
